import Mathlib

/-!
Verification of the AI-Comm-Assistant pipeline (shallow embedding).

Source files embedded below:
* `ai_comm_assistant/services/sentiment.py`  — keyword sentiment/urgency heuristics
* `ai_comm_assistant/utils.py`               — `extract_keywords`, `calculate_priority`, `calculate_trust`
* `ai_comm_assistant/services/gemini_adapter.py` — reply generation and attachment text extraction
* `ai_comm_assistant/services/rag.py`        — lazily built nearest-neighbour KB retriever
* `ai_comm_assistant/services/email_utils.py` — IMAP ingestion batch
* `ai_comm_assistant/tasks.py`               — the processing task over stored emails
* `ai_comm_assistant/models.py`              — row types and their column defaults

Machine reals (Python floats) are modelled as exact rationals; the few float
operations used by the code (comparison, `*`, `+`, `min`/`max`, `int()`
truncation) are exact on the small decimal values involved.  External
collaborators (IMAP server, Gemini API, Whisper, pdf2image, pytesseract, the
sentence-transformer embedding) are modelled as explicit oracles passed in;
a Python exception raised by the code is modelled as `Except.error`.
-/

namespace AIComm

/-! ### Basic string machinery (Python `in`, `.lower()`, `.strip()`, `.split()`) -/

/-- `prefixB n h` : the char list `n` is a prefix of `h` (Python string compare). -/
def prefixB : List Char → List Char → Bool
  | [], _ => true
  | _ :: _, [] => false
  | a :: as, b :: bs => a == b && prefixB as bs

/-- `occursIn n h` : `n` occurs as a contiguous substring of `h`
(Python `n in h` for strings). -/
def occursIn (needle : List Char) : List Char → Bool
  | [] => needle.isEmpty
  | c :: t => prefixB needle (c :: t) || occursIn needle t

/-- Python `str.lower()` (ASCII case folding, as `Char.toLower`). -/
def lowerStr (s : String) : String := String.mk (s.data.map Char.toLower)

/-- `strOccurs n h` : Python `n in h` on strings. -/
def strOccurs (needle hay : String) : Bool := occursIn needle.data hay.data

/-- Python `str.strip()`: drop leading and trailing whitespace. -/
def pyStrip (s : String) : String :=
  String.mk (((s.data.dropWhile Char.isWhitespace).reverse.dropWhile Char.isWhitespace).reverse)

/-- Fuel-driven worker for `splitOnSub` (Python `str.split(sep)` with a nonempty
separator: split on every non-overlapping occurrence, scanning left to right).
`cur` is the reversed chunk accumulated so far. -/
def splitOnSubAux (sep : List Char) : Nat → List Char → List Char → List (List Char)
  | _, [], cur => [cur.reverse]
  | 0, rest, cur => [cur.reverse ++ rest]
  | fuel + 1, c :: rest, cur =>
    if prefixB sep (c :: rest) then
      cur.reverse :: splitOnSubAux sep fuel (List.drop (sep.length - 1) rest) []
    else
      splitOnSubAux sep fuel rest (c :: cur)

/-- Python `hay.split(sep)` for a nonempty `sep`, over char lists. -/
def splitOnSub (sep hay : List Char) : List (List Char) :=
  splitOnSubAux sep hay.length hay []

/-! ### Classifier — `services/sentiment.py` -/

def NEGATIVE_KEYWORDS : List String :=
  ["complain", "terrible", "bad", "angry", "frustrated", "upset", "issue",
   "problem", "unhappy", "unsatisfied"]

def POSITIVE_KEYWORDS : List String :=
  ["thank", "great", "good", "appreciate", "love", "happy", "excellent"]

def URGENCY_KEYWORDS : List String :=
  ["urgent", "immediately", "asap", "as soon as possible", "now", "important"]

/-- `detect_sentiment_and_urgency` (sentiment.py:12-25): keyword heuristics on
the lowercased text; empty text short-circuits to `("neutral", false)`. -/
def detect_sentiment_and_urgency (text : String) : String × Bool :=
  if text = "" then ("neutral", false)
  else
    let lowered := lowerStr text
    let positive_count := (POSITIVE_KEYWORDS.filter (fun kw => strOccurs kw lowered)).length
    let negative_count := (NEGATIVE_KEYWORDS.filter (fun kw => strOccurs kw lowered)).length
    let sentiment :=
      if positive_count > negative_count then "positive"
      else if negative_count > positive_count then "negative"
      else "neutral"
    (sentiment, URGENCY_KEYWORDS.any (fun kw => strOccurs kw lowered))

/-! ### Utility functions — `utils.py` -/

/-- Python `int()` on an exact rational: truncation toward zero. -/
def ratTrunc (q : ℚ) : ℤ := if 0 ≤ q then ⌊q⌋ else ⌈q⌉

/-- `calculate_priority` (utils.py:38-50).  `age_minutes` stands for the value
`(utcnow() - timestamp).total_seconds() / 60.0` computed by the code. -/
def calculate_priority (sentiment : String) (urgency : Bool) (age_minutes : ℚ) : ℤ :=
  let score : ℤ := (if urgency then 50 else 0) +
    (if sentiment = "negative" then 20 else if sentiment = "positive" then -10 else 0)
  max (score + min (ratTrunc (age_minutes / 10)) 30) 0

/-- `calculate_trust` (utils.py:53-58). -/
def calculate_trust (confidence : ℚ) (heuristics_score : ℚ := 0) : ℚ :=
  max 0 (min (confidence * 70 + heuristics_score * 30) 100)

/-- A Python `\w` word character (ASCII range): letter, digit or underscore. -/
def wordChar (c : Char) : Bool := c.isAlphanum || c == '_'

/-- Maximal runs of word characters (the matches of `\b\w+\b`); `acc` holds the
current run reversed. -/
def wordRunsAux : List Char → List Char → List (List Char)
  | [], acc => if acc.isEmpty then [] else [acc.reverse]
  | c :: rest, acc =>
    if wordChar c then wordRunsAux rest (c :: acc)
    else if acc.isEmpty then wordRunsAux rest acc
    else acc.reverse :: wordRunsAux rest []

def wordRuns (cs : List Char) : List (List Char) := wordRunsAux cs []

/-- `re.findall(r'\b\w{5,}\b', text.lower())`: maximal word-character runs of
length at least 5 in the lowercased text. -/
def findWords (text : String) : List String :=
  ((wordRuns (lowerStr text).data).filter (fun w => 5 ≤ w.length)).map String.mk

/-- Python `dict.fromkeys` de-duplication: keep the first occurrence of each
element, preserving order; `seen` holds elements already emitted. -/
def dedupFirstAux (seen : List String) : List String → List String
  | [] => []
  | x :: xs =>
    if x ∈ seen then dedupFirstAux seen xs
    else x :: dedupFirstAux (x :: seen) xs

def dedupFirst (l : List String) : List String := dedupFirstAux [] l

/-- `extract_keywords` (utils.py:29-35). -/
def extract_keywords (text : String) (max_keywords : Nat := 5) : List String :=
  (dedupFirst (findWords text)).take max_keywords

/-! ### Draft generator — `services/gemini_adapter.py`, `generate_reply` -/

/-- A successful response of the generative backend: the response text plus the
optional `candidate_info['probability']` confidence signal (`none` when the
backend provides no explicit score). -/
structure BackendResp where
  text : String
  probability : Option ℚ
deriving DecidableEq

/-- The dict returned by `generate_reply`. -/
structure ReplyResult where
  reply_text : String
  justification : String
  confidence : ℚ
deriving DecidableEq

/-- The fixed fallback apology string (gemini_adapter.py:78). -/
def fallbackReply : String :=
  "I am sorry, I could not generate a reply due to an internal error."

/-- The fixed marker the response is split on (gemini_adapter.py:67). -/
def justMarker : String := "Justification:"

/-- `GeminiAdapter.generate_reply` (gemini_adapter.py:47-81).  The single
backend call `self.text_model.generate_content(prompt)` is an oracle: `.ok`
carries the response, `.error` carries the error detail of any exception the
`try` block catches (auth failure, network failure, malformed response). -/
def generate_reply (backend : Except String BackendResp) : ReplyResult :=
  match backend with
  | .error e =>
    { reply_text := fallbackReply
      justification := "Gemini API error: " ++ e
      confidence := 0 }
  | .ok resp =>
    let confidence : ℚ := resp.probability.getD (6/10)
    let parts := splitOnSub justMarker.data resp.text.data
    let reply_text := pyStrip (String.mk (parts.headD []))
    let justification :=
      match parts with
      | _ :: p1 :: _ => pyStrip (String.mk p1)
      | _ => ""
    { reply_text := reply_text, justification := justification, confidence := confidence }

/-! ### Content extractor — `services/gemini_adapter.py`, `extract_text_from_file`

The external collaborators (PIL `Image.open`, `pdf2image.convert_from_path`,
the Gemini vision model, `pytesseract`, Whisper) are oracles; an opaque image
object is a `Nat` token.  `Except.error e` models a raised exception. -/

/-- Oracles consumed by `extract_text_from_file` for one file path. -/
structure ExtractEnv where
  /-- `os.path.exists(file_path)` -/
  pathExists : Bool
  /-- `os.path.splitext(file_path)[1].lower().lstrip('.')` -/
  ext : String
  /-- `Image.open(file_path)` -/
  imageOpen : Except String Nat
  /-- `convert_from_path(file_path)` — first rasterization attempt -/
  raster1 : Except String (List Nat)
  /-- `convert_from_path(file_path, dpi=200)` — the retry -/
  raster2 : Except String (List Nat)
  /-- `self.vision_model.generate_content(contents).text` on a list of images -/
  vision : List Nat → Except String String
  /-- `pytesseract.image_to_string(img)` -/
  tesseract : Nat → Except String String
  /-- `self.whisper_model.transcribe(file_path).get('text', '')`
  (including a failure to load the Whisper model) -/
  whisper : Except String String

/-- `GeminiAdapter._extract_text_from_images` (gemini_adapter.py:118-134): try
the vision model; on failure fall back to a pytesseract loop whose own
exceptions propagate. -/
def extractTextFromImages (env : ExtractEnv) (imgs : List Nat) : Except String String :=
  match env.vision imgs with
  | .ok t => .ok t
  | .error _ => imgs.foldlM (fun acc img => (env.tesseract img).map (acc ++ ·)) ""

/-- `GeminiAdapter._transcribe_audio` (gemini_adapter.py:136-142): any
exception yields the empty string. -/
def transcribeAudio (env : ExtractEnv) : String :=
  match env.whisper with
  | .ok t => t
  | .error _ => ""

def imageExts : List String := ["png", "jpg", "jpeg", "bmp", "gif"]

def audioExts : List String := ["wav", "mp3", "m4a", "flac", "ogg"]

/-- `GeminiAdapter.extract_text_from_file` (gemini_adapter.py:90-116). -/
def extract_text_from_file (env : ExtractEnv) : Except String String :=
  if !env.pathExists then .ok ""
  else if env.ext ∈ imageExts then
    match env.imageOpen with
    | .error e => .error e
    | .ok img => extractTextFromImages env [img]
  else if env.ext = "pdf" then
    match env.raster1 with
    | .ok pages => extractTextFromImages env pages
    | .error _ =>
      match env.raster2 with
      | .ok pages => extractTextFromImages env pages
      | .error e => .error e
  else if env.ext ∈ audioExts then .ok (transcribeAudio env)
  else
    match env.imageOpen with
    | .error e => .error e
    | .ok img => env.tesseract img

/-! ### Knowledge retriever — `services/rag.py`

The sentence-transformer is an oracle `embed : String → List ℚ`; the FAISS
`IndexFlatL2` over the stored vectors is modelled exactly: squared L2
distances, the `min(k, n)` nearest ids in ascending distance order, ties
broken by lower id (insertion order), exact search. -/

/-- One slot of the built index: the embedding vector of a KB entry's content
together with the content itself (`id_to_entry`). -/
structure RAGIndexEntry where
  vec : List ℚ
  content : String
deriving DecidableEq

/-- The mutable state of a `RAGService`: the database's `KBEntry` contents
(the source of truth the index is built from) and the index, `none` right
after construction (`self.index = None`). -/
structure RAGState where
  kb : List String
  index : Option (List RAGIndexEntry)
deriving DecidableEq

/-- The index rows `build_index` constructs from a KB table. -/
def kbIndex (embed : String → List ℚ) (kb : List String) : List RAGIndexEntry :=
  kb.map (fun c => ⟨embed c, c⟩)

/-- `RAGService.build_index` (rag.py:28-40): with no KB entries the index is
reset to `None`; otherwise every entry's content is encoded and indexed. -/
def build_index (embed : String → List ℚ) (r : RAGState) : RAGState :=
  if r.kb.isEmpty then { r with index := none }
  else { r with index := some (kbIndex embed r.kb) }

/-- Squared L2 distance of two embedding vectors (FAISS `IndexFlatL2`). -/
def sqDist (u v : List ℚ) : ℚ := (List.zipWith (fun a b => (a - b) ^ 2) u v).sum

/-- The FAISS result order for query vector `q`: ascending squared distance,
ties broken by ascending id. -/
def ragOrder (q : List ℚ) (a b : Nat × RAGIndexEntry) : Prop :=
  sqDist q a.2.vec < sqDist q b.2.vec ∨
    (sqDist q a.2.vec = sqDist q b.2.vec ∧ a.1 ≤ b.1)

instance (q : List ℚ) : DecidableRel (ragOrder q) := fun _ _ => by
  unfold ragOrder; infer_instance

/-- `RAGService.get_top_k` (rag.py:42-55): lazily build the index, answer `[]`
from an empty index, otherwise search for the `min(k, n)` nearest entries and
return their contents.  Returns the snippets and the post-query state. -/
def get_top_k (embed : String → List ℚ) (r : RAGState) (query : String) (k : Nat) :
    List String × RAGState :=
  let r' := if r.index.isNone then build_index embed r else r
  match r'.index with
  | none => ([], r')
  | some idx =>
    if idx.isEmpty then ([], r')
    else
      let v := embed query
      let kk := min k idx.length
      let sorted := List.insertionSort (ragOrder v) idx.enum
      ((sorted.take kk).map (fun p => p.2.content), r')

/-! ### Ingestion batch — `services/email_utils.py`, `fetch_and_store_emails`

A raw IMAP message is an oracle record; `storeFails = true` models an
exception raised anywhere while persisting this message (body decode,
attachment write, database commit, ...).  Because the `try` block of
`fetch_and_store_emails` wraps the whole message loop, such an exception
reaches the batch-level handler. -/

structure RawMsg where
  /-- `imap.fetch` returned status 'OK' for this message id -/
  fetchOk : Bool
  subject : String
  /-- the `Thread-Index` header, `none` when missing/empty -/
  threadHeader : Option String
  /-- the `Message-ID` header, `none` when missing/empty -/
  messageId : Option String
  sender : String
  recipients : String
  body : String
  /-- an exception is raised while parsing/persisting this message -/
  storeFails : Bool
deriving DecidableEq

/-- The subject keyword allow-list (email_utils.py:42). -/
def SUBJECT_KEYWORDS : List String := ["support", "query", "request", "help"]

/-- `any(k.lower() in subject.lower() for k in keywords)` (email_utils.py:57). -/
def subjectMatches (subject : String) : Bool :=
  SUBJECT_KEYWORDS.any (fun k => strOccurs (lowerStr k) (lowerStr subject))

/-- A persisted `Email` row as created by ingestion (models.py:62-77 column
defaults: `sentiment='neutral'`, `urgency=False`). -/
structure StoredEmail where
  threadKey : String
  messageId : Option String
  sender : String
  recipients : String
  subject : String
  body : String
  /-- `','.join(extract_keywords(body))` (email_utils.py:70,79) -/
  keywords : String
  sentiment : String
  urgency : Bool
deriving DecidableEq

/-- A persisted `Thread` row (the fields ingestion touches). -/
structure IngestThread where
  threadKey : String
  subject : String
  priority_score : ℤ
deriving DecidableEq

/-- The database as ingestion sees it. -/
structure MailDB where
  threads : List IngestThread
  emails : List StoredEmail
deriving DecidableEq

/-- Outcome of handling one raw message inside the loop. -/
inductive MsgOutcome
  | skipped (db : MailDB)
  | stored (db : MailDB)
  | failed

/-- The Email row constructed at email_utils.py:72-80 (`Email(...)` with
`keywords=','.join(extract_keywords(body))` and the column defaults of
models.py:62-77: `sentiment='neutral'`, `urgency=False`).  This is the row
`db.session.add` receives; whether it is ever committed is a separate
question. -/
def buildEmailRecord (tkey : String) (m : RawMsg) : StoredEmail :=
  { threadKey := tkey, messageId := m.messageId, sender := m.sender
    recipients := m.recipients, subject := m.subject, body := m.body
    keywords := String.intercalate "," (extract_keywords m.body 5)
    sentiment := "neutral", urgency := false }

/-- `email_record.timestamp` as read at email_utils.py:99: the column default
`dt.datetime.utcnow` (models.py:71) fires only at flush/INSERT, and no flush
happens between the row's construction and line 99, so the attribute is still
`None` there. -/
def emailTimestampAtStore : Option ℚ := none

/-- One iteration of the message loop of `fetch_and_store_emails`
(email_utils.py:50-101): skip on fetch failure or subject-filter miss; an
exception while parsing/persisting the message (`storeFails`) leaves the
database unchanged and escapes the loop (`.failed`).  Otherwise the Thread is
upserted and the Email row built — but line 99 then computes
`calculate_priority('neutral', False, email_record.timestamp)` on the
still-`None` timestamp, and `utcnow() - None` raises `TypeError`, so the
per-message `commit` on line 100 is never reached: the `.stored` branch below
(what the code would do with a present timestamp) is unreachable. -/
def processMessage (db : MailDB) (m : RawMsg) : MsgOutcome :=
  if !m.fetchOk then .skipped db
  else if !subjectMatches m.subject then .skipped db
  else if m.storeFails then .failed
  else
    let tkey := m.threadHeader.getD (m.messageId.getD m.subject)
    let threads :=
      if db.threads.any (·.threadKey == tkey) then db.threads
      else db.threads ++ [⟨tkey, m.subject, 0⟩]
    let e : StoredEmail := buildEmailRecord tkey m
    match emailTimestampAtStore with
    | none => .failed
    | some age =>
      let threads := threads.map fun t =>
        if t.threadKey == tkey then
          { t with priority_score := calculate_priority "neutral" false age }
        else t
      .stored { threads := threads, emails := db.emails ++ [e] }

/-- The message loop: `.failed` aborts the loop (the exception propagates to
the `except` clause around it), which returns the count accumulated so far. -/
def ingestLoop : List RawMsg → MailDB → Nat → Nat × MailDB
  | [], db, count => (count, db)
  | m :: rest, db, count =>
    match processMessage db m with
    | .skipped db' => ingestLoop rest db' count
    | .stored db' => ingestLoop rest db' (count + 1)
    | .failed => (count, db)

/-- `fetch_and_store_emails` (email_utils.py:34-106): returns the number of
messages successfully processed and the resulting database. -/
def fetch_and_store_emails (db : MailDB) (msgs : List RawMsg) : Nat × MailDB :=
  ingestLoop msgs db 0

/-! ### Processing task — `tasks.py`, `process_emails_task`

State passing over the rows the task touches.  `ageMinutes` is the email's
age at task time (its `timestamp` column); sender/subject/body are immutable
during a run, so the thread transcript is built from the pre-run email rows
exactly as `thread.emails` yields them. -/

/-- An `Email` row (models.py:62-77).  `models.py:75`: the `sentiment` column
defaults to `'neutral'`. -/
structure PEmail where
  eid : Nat
  threadRef : Nat
  sender : String
  subject : String
  body : String
  ageMinutes : ℚ
  sentiment : String
  urgency : Bool
  attachPaths : List String
deriving DecidableEq

/-- The default value of the `Email.sentiment` column (models.py:75). -/
def emailSentimentDefault : String := "neutral"

/-- A `Thread` row (the fields the task touches). -/
structure PThread where
  tid : Nat
  sentiment : String
  urgency : Bool
  priority_score : ℤ
deriving DecidableEq

/-- A `Draft` row (models.py:93-106). -/
structure PDraft where
  threadRef : Nat
  reply_text : String
  justification : String
  confidence : ℚ
  tone : String
  sentiment : String
  coach_score : ℤ
  is_sent : Bool
deriving DecidableEq

/-- Column defaults of a freshly constructed `Draft(thread=thread)`
(models.py:99-105). -/
def draftDefault (tid : Nat) : PDraft :=
  { threadRef := tid, reply_text := "", justification := "", confidence := 0
    tone := "empathetic", sentiment := "neutral", coach_score := 0, is_sent := false }

structure PState where
  threads : List PThread
  emails : List PEmail
  drafts : List PDraft
deriving DecidableEq

/-- External collaborators of the processing task. -/
structure ProcEnv where
  /-- `Config.OFFLINE_MODE` -/
  offline : Bool
  /-- `adapter.extract_text_from_file(att.path)` (its non-raising runs) -/
  extractText : String → String
  /-- `rag_service.get_top_k(thread_text, k)` -/
  ragTopK : String → Nat → List String
  /-- `adapter.generate_reply(thread_text, kb_context, tone, sentiment, urgency)` -/
  genReply : String → String → String → String → Bool → ReplyResult

/-- `thread.draft` — the (first) Draft row of the thread, if any. -/
def findDraft (ds : List PDraft) (tid : Nat) : Option PDraft :=
  ds.find? (·.threadRef == tid)

/-- `draft = thread.draft or Draft(thread=thread)` followed by
`db.session.add(draft)`: the updated row replaces the thread's existing Draft
row if one exists, otherwise it is inserted as a new row. -/
def replaceFirstDraft : List PDraft → Nat → PDraft → List PDraft
  | [], _, d => [d]
  | o :: rest, tid, d =>
    if o.threadRef == tid then d :: rest else o :: replaceFirstDraft rest tid d

/-- `'\n\n'.join(f"From: {e.sender}\nSubject: {e.subject}\n{e.body}"
for e in thread.emails)` (tasks.py:100). -/
def threadText (emails : List PEmail) (tid : Nat) : String :=
  String.intercalate "\n\n" ((emails.filter (·.threadRef == tid)).map
    (fun e => "From: " ++ e.sender ++ "\nSubject: " ++ e.subject ++ "\n" ++ e.body))

/-- `Email.query.filter_by(sentiment='neutral')` (tasks.py:76): the emails the
task treats as unprocessed. -/
def selectUnprocessed (st : PState) : List PEmail :=
  st.emails.filter (·.sentiment == "neutral")

/-- `'\n'.join`-style accumulation of extracted attachment text for one email
(tasks.py:79-84); in offline mode attachment extraction is skipped and the
accumulator stays empty. -/
def attachText (env : ProcEnv) (e : PEmail) : String :=
  if env.offline then ""
  else e.attachPaths.foldl (fun acc p => acc ++ "\n" ++ env.extractText p) ""

/-- The Draft row written by tasks.py:104-116: the thread's existing Draft row
if present (`thread.draft or Draft(thread=thread)`) with reply text,
justification, confidence, tone, sentiment and trust stamped — `is_sent` is
never assigned. -/
def newDraft (env : ProcEnv) (allEmails : List PEmail) (st : PState) (e : PEmail)
    (sentiment : String) (urgency : Bool) : PDraft :=
  let ttext := threadText allEmails e.threadRef
  let kb_context := String.intercalate "\n---\n" (env.ragTopK ttext 3)
  let tone := if sentiment = "negative" then "empathetic" else "formal"
  let result := env.genReply ttext kb_context tone sentiment urgency
  let base := (findDraft st.drafts e.threadRef).getD (draftDefault e.threadRef)
  { base with reply_text := result.reply_text, justification := result.justification
              confidence := result.confidence, tone := tone, sentiment := sentiment
              coach_score := ratTrunc (calculate_trust result.confidence 0) }

/-- The loop body of `process_emails_task` (tasks.py:77-117) for one selected
email `e`: extract attachment text (online only), classify body+attachments,
stamp the email and its thread, and — online — regenerate the thread's draft.
`allEmails` is the pre-run email table used for the thread transcript (only
immutable fields of it are read). -/
def processOne (env : ProcEnv) (allEmails : List PEmail) (st : PState) (e : PEmail) :
    PState :=
  let combined := e.body ++ "\n" ++ attachText env e
  let sentiment := (detect_sentiment_and_urgency combined).1
  let urgency := (detect_sentiment_and_urgency combined).2
  let emails' := st.emails.map fun x =>
    if x.eid == e.eid then { x with sentiment := sentiment, urgency := urgency } else x
  let threads' := st.threads.map fun t =>
    if t.tid == e.threadRef then
      { t with sentiment := sentiment, urgency := urgency
               priority_score := calculate_priority sentiment urgency e.ageMinutes }
    else t
  if env.offline then { st with emails := emails', threads := threads' }
  else
    { threads := threads', emails := emails'
      drafts := replaceFirstDraft st.drafts e.threadRef
          (newDraft env allEmails st e sentiment urgency) }

/-- `process_emails_task` (tasks.py:69-118). -/
def process_emails_task (env : ProcEnv) (st : PState) : PState :=
  (selectUnprocessed st).foldl (fun s e => processOne env st.emails s e) st

/-! ### Auxiliary definitions for the verification -/

instance {ε α : Type} [DecidableEq ε] [DecidableEq α] : DecidableEq (Except ε α) := fun x y =>
  match x, y with
  | .ok a, .ok b => decidable_of_iff (a = b) (by simp)
  | .ok _, .error _ => isFalse (by simp)
  | .error _, .ok _ => isFalse (by simp)
  | .error a, .error b => decidable_of_iff (a = b) (by simp)

/-- The priority formula exactly as the specification words it: age bonus
`min(floor(age_minutes / 10), 30)`, final score floored at 0.  Kept separate
from `calculate_priority` (which embeds the code's `int()` truncation) so the
two can be compared. -/
def specPriorityFormula (sentiment : String) (urgency : Bool) (age_minutes : ℚ) : ℤ :=
  max 0 ((if urgency then 50 else 0) +
    (if sentiment = "negative" then 20 else if sentiment = "positive" then -10 else 0) +
    min ⌊age_minutes / 10⌋ 30)

/-- How a thread's draft `is_sent` field can evolve across processing:
either it is preserved, or there was no draft and at most a fresh
`is_sent = false` draft was created. -/
def SentEvolves (a b : Option PDraft) : Prop :=
  b.map (·.is_sent) = a.map (·.is_sent) ∨
    (a = none ∧ (b = none ∨ b.map (·.is_sent) = some false))

/-! #### Concrete fixtures used by counterexamples and witnesses -/

/-- A processing environment whose generative backend answers `"R1"`. -/
def env1 : ProcEnv :=
  { offline := false
    extractText := fun _ => ""
    ragTopK := fun _ _ => []
    genReply := fun _ _ _ _ _ => ⟨"R1", "", 0⟩ }

/-- The same environment on a later run, when the (nondeterministic) backend
answers `"R2"`. -/
def env2 : ProcEnv :=
  { env1 with genReply := fun _ _ _ _ _ => ⟨"R2", "", 0⟩ }

/-- One thread holding one never-processed email whose body classifies as
genuinely neutral. -/
def st0 : PState :=
  { threads := [⟨1, "neutral", false, 0⟩]
    emails := [⟨1, 1, "cust@example.com", "Need help", "hello", 0, "neutral", false, []⟩]
    drafts := [] }

/-- `st0` after one processing run: the email is classified (neutral) and a
draft `"R1"` exists. -/
def st1 : PState := process_emails_task env1 st0

/-- `st1` after the agent sends the draft (routes/main.py sets
`draft.is_sent = True`). -/
def st2 : PState := { st1 with drafts := st1.drafts.map (fun d => { d with is_sent := true }) }

/-- `st2` after re-running the processing task with no new email. -/
def st3 : PState := process_emails_task env2 st2

/-- A state whose only email is classified non-neutral. -/
def stPos : PState :=
  { threads := [⟨1, "positive", false, 0⟩]
    emails := [⟨1, 1, "cust@example.com", "Thanks", "thank you", 0, "positive", false, []⟩]
    drafts := [⟨1, "existing", "", 0, "formal", "positive", 0, false⟩] }

def dbEmpty : MailDB := ⟨[], []⟩

/-- A message whose persistence raises (e.g. its attachment payload decodes to
`None` and the file write throws). -/
def mBad : RawMsg :=
  ⟨true, "support: broken", none, some "m1", "a@x", "b@x", "it broke", true⟩

/-- A perfectly well-formed unseen message. -/
def mGood : RawMsg :=
  ⟨true, "help please", none, some "m2", "c@x", "b@x", "please assist quickly", false⟩

/-- A PDF attachment whose rasterization fails on both attempts. -/
def pdfFailEnv : ExtractEnv :=
  { pathExists := true, ext := "pdf", imageOpen := .ok 0
    raster1 := .error "poppler crashed", raster2 := .error "poppler crashed again"
    vision := fun _ => .ok "", tesseract := fun _ => .ok "", whisper := .ok "" }

/-- An audio attachment whose transcription fails. -/
def audioFailEnv : ExtractEnv :=
  { pathExists := true, ext := "wav", imageOpen := .ok 0
    raster1 := .ok [], raster2 := .ok []
    vision := fun _ => .ok "", tesseract := fun _ => .ok ""
    whisper := .error "model load failed" }

/-- A PDF whose first rasterization fails and whose dpi=200 retry succeeds. -/
def pdfRetryEnv : ExtractEnv :=
  { pathExists := true, ext := "pdf", imageOpen := .ok 0
    raster1 := .error "poppler crashed", raster2 := .ok [7]
    vision := fun _ => .ok "retried page text", tesseract := fun _ => .ok ""
    whisper := .ok "" }

/-! ## Helper lemmas -/

theorem prefixB_refl (l : List Char) : prefixB l l = true := by
  induction l with
  | nil => rfl
  | cons a t ih => simp [prefixB, ih]

theorem occursIn_self (l : List Char) : occursIn l l = true := by
  cases l with
  | nil => rfl
  | cons c t => simp [occursIn, prefixB_refl]

theorem occursIn_append_right (p n : List Char) : occursIn n (p ++ n) = true := by
  induction p with
  | nil => simpa using occursIn_self n
  | cons c t ih => simp [occursIn, ih]

/-! ## C5 — generate_reply fallback on backend errors -/

/-- C5: on every backend error during draft generation, `generate_reply`
returns the fixed fallback result — the generic apology reply text, a
justification containing the error detail, and confidence exactly 0 — and
(being a total function of the oracle outcome) never propagates the
exception to the caller. -/
theorem C5_generate_reply_fallback (e : String) :
    generate_reply (.error e) =
      { reply_text := fallbackReply
        justification := "Gemini API error: " ++ e
        confidence := 0 }
    ∧ strOccurs e ((generate_reply (.error e)).justification) = true := by
  refine ⟨rfl, ?_⟩
  show occursIn e.data ("Gemini API error: " ++ e).data = true
  rw [String.data_append]
  exact occursIn_append_right _ _

/-! ## C6 — the keyword classifier -/

/-- C6: for every input text, `detect_sentiment_and_urgency` returns sentiment
`positive` when the count of positive-keyword substring hits (on the
lowercased text) exceeds the negative-keyword hit count, `negative` in the
symmetric case, and `neutral` on a tie or no hits; its urgency flag is true
iff some urgency keyword occurs as a substring of the lowercased text.  It is
a pure Lean function of the text alone, hence deterministic with no external
calls. -/
theorem C6_classifier_majority_vote (text : String) :
    (detect_sentiment_and_urgency text).1 =
      (if (POSITIVE_KEYWORDS.filter (fun kw => strOccurs kw (lowerStr text))).length >
          (NEGATIVE_KEYWORDS.filter (fun kw => strOccurs kw (lowerStr text))).length
       then "positive"
       else if (NEGATIVE_KEYWORDS.filter (fun kw => strOccurs kw (lowerStr text))).length >
          (POSITIVE_KEYWORDS.filter (fun kw => strOccurs kw (lowerStr text))).length
       then "negative"
       else "neutral")
  ∧ ((detect_sentiment_and_urgency text).2 = true ↔
      ∃ kw ∈ URGENCY_KEYWORDS, strOccurs kw (lowerStr text) = true) := by
  by_cases h : text = ""
  · subst h; decide
  · unfold detect_sentiment_and_urgency
    rw [if_neg h]
    exact ⟨rfl, by simp [List.any_eq_true]⟩

/-! ## C7 — the priority scorer -/

theorem ratTrunc_eq_floor {q : ℚ} (h : 0 ≤ q) : ratTrunc q = ⌊q⌋ := by
  unfold ratTrunc
  exact if_pos h

theorem ratTrunc_mono {x y : ℚ} (h : x ≤ y) : ratTrunc x ≤ ratTrunc y := by
  unfold ratTrunc
  by_cases hx : 0 ≤ x
  · rw [if_pos hx, if_pos (hx.trans h)]
    exact Int.floor_le_floor h
  · by_cases hy : 0 ≤ y
    · rw [if_neg hx, if_pos hy]
      exact le_trans (Int.ceil_le.mpr (by exact_mod_cast le_of_not_le hx))
        (Int.floor_nonneg.2 hy)
    · rw [if_neg hx, if_neg hy]
      exact Int.ceil_le_ceil h

/-- C7 counterexample: for a message timestamped 5 minutes in the future
(`age_minutes = -5`, i.e. `utcnow() - timestamp` is negative) the code's
`int()` truncation gives score 50, while the claimed formula
`max(0, ... + min(floor(age_minutes/10), 30))` gives 49. -/
theorem C7_counterexample :
    calculate_priority "neutral" true (-5) = 50
  ∧ specPriorityFormula "neutral" true (-5) = 49
  ∧ calculate_priority "neutral" true (-5) ≠ specPriorityFormula "neutral" true (-5) := by
  have h1 : ratTrunc ((-5 : ℚ) / 10) = 0 := by
    unfold ratTrunc
    rw [if_neg (by norm_num), Int.ceil_eq_iff]
    norm_num
  have h2 : ⌊(-5 : ℚ) / 10⌋ = -1 := by
    rw [Int.floor_eq_iff]
    norm_num
  have e1 : calculate_priority "neutral" true (-5) = 50 := by
    unfold calculate_priority
    rw [h1]
    decide
  have e2 : specPriorityFormula "neutral" true (-5) = 49 := by
    unfold specPriorityFormula
    rw [h2]
    decide
  exact ⟨e1, e2, by rw [e1, e2]; decide⟩

/-- C7 amended: the score equals
`max(0, (50 if urgent) + (20 if negative) + (-10 if positive) +
min(trunc(age_minutes/10), 30))` with Python `int()` truncation toward zero;
for non-negative ages (timestamps not in the future) truncation coincides
with floor, so the claimed formula holds there.  `score("negative", true,
now) = 70`, `score("positive", false, now) = 0`, the score is a non-negative
integer, non-decreasing in age, and the age term is capped at 30. -/
theorem C7_amended_priority_formula (s : String) (u : Bool) (age age' : ℚ) :
    calculate_priority s u age =
      max 0 ((if u then 50 else 0) +
        (if s = "negative" then 20 else if s = "positive" then -10 else 0) +
        min (ratTrunc (age / 10)) 30)
  ∧ (0 ≤ age → calculate_priority s u age = specPriorityFormula s u age)
  ∧ calculate_priority "negative" true 0 = 70
  ∧ calculate_priority "positive" false 0 = 0
  ∧ 0 ≤ calculate_priority s u age
  ∧ (age ≤ age' → calculate_priority s u age ≤ calculate_priority s u age')
  ∧ calculate_priority s u age ≤
      max 0 ((if u then 50 else 0) +
        (if s = "negative" then 20 else if s = "positive" then -10 else 0) + 30) := by
  have hz : ratTrunc ((0 : ℚ) / 10) = 0 := by
    rw [show ((0 : ℚ) / 10) = 0 by norm_num, ratTrunc_eq_floor le_rfl, Int.floor_zero]
  refine ⟨?_, ?_, ?_, ?_, ?_, ?_, ?_⟩
  · unfold calculate_priority
    rw [max_comm, add_assoc]
  · intro h
    unfold calculate_priority specPriorityFormula
    rw [ratTrunc_eq_floor (by positivity), max_comm, add_assoc]
  · unfold calculate_priority
    rw [hz]
    decide
  · unfold calculate_priority
    rw [hz]
    decide
  · unfold calculate_priority
    exact le_max_right _ 0
  · intro h
    unfold calculate_priority
    have := ratTrunc_mono ((div_le_div_iff_of_pos_right (show (0:ℚ) < 10 by norm_num)).mpr h)
    exact max_le_max (add_le_add_left (min_le_min_right 30 this) _) le_rfl
  · unfold calculate_priority
    rw [max_comm]
    exact max_le_max le_rfl (add_le_add_left (min_le_right _ _) _)

/-- C7 witness: the amended theorem applied at age 0 and at the pair
(0, 25). -/
theorem C7_witness :
    ((0 : ℚ) ≤ 0 ∧ calculate_priority "negative" true 0 = specPriorityFormula "negative" true 0)
  ∧ ((0 : ℚ) ≤ 25 ∧ calculate_priority "neutral" true 0 ≤ calculate_priority "neutral" true 25) :=
  ⟨⟨le_rfl, (C7_amended_priority_formula "negative" true 0 0).2.1 le_rfl⟩,
   ⟨by norm_num, (C7_amended_priority_formula "neutral" true 0 25).2.2.2.2.2.1 (by norm_num)⟩⟩

/-! ## C9 — response parsing in generate_reply -/

theorem splitOnSubAux_no_occur (sep : List Char) :
    ∀ (hay : List Char) (fuel : Nat) (cur : List Char),
      hay.length ≤ fuel → occursIn sep hay = false →
      splitOnSubAux sep fuel hay cur = [cur.reverse ++ hay] := by
  intro hay
  induction hay with
  | nil =>
    intro fuel cur _ _
    cases fuel <;> simp [splitOnSubAux]
  | cons c t ih =>
    intro fuel cur hfuel hocc
    cases fuel with
    | zero => simp at hfuel
    | succ f =>
      rw [occursIn] at hocc
      rcases Bool.or_eq_false_iff.mp hocc with ⟨hp, ht⟩
      rw [splitOnSubAux, if_neg (by simp [hp])]
      rw [ih f (c :: cur) (by simpa using hfuel) ht]
      simp

theorem splitOnSub_no_occur (sep hay : List Char) (h : occursIn sep hay = false) :
    splitOnSub sep hay = [hay] := by
  simpa using splitOnSubAux_no_occur sep hay hay.length [] le_rfl h

/-- C9 counterexample: on the backend response
`" A Justification: B Justification: C"` the code's `text.split` yields the
reply `"A"` (stripped, not the raw part before the first marker `" A"`) and
the justification `"B"` — the stripped segment between the first and second
markers — not everything after the first marker. -/
theorem C9_counterexample :
    (generate_reply (.ok ⟨" A Justification: B Justification: C", none⟩)).reply_text = "A"
  ∧ (generate_reply (.ok ⟨" A Justification: B Justification: C", none⟩)).reply_text ≠ " A"
  ∧ (generate_reply (.ok ⟨" A Justification: B Justification: C", none⟩)).justification = "B"
  ∧ (generate_reply (.ok ⟨" A Justification: B Justification: C", none⟩)).justification
      ≠ "B Justification: C"
  ∧ (generate_reply (.ok ⟨" A Justification: B Justification: C", none⟩)).justification
      ≠ " B Justification: C" := by
  decide

/-- C9 amended: on a successful backend response the text is split on every
occurrence of `"Justification:"`; the reply is the whitespace-stripped part
before the first marker, and the justification is the whitespace-stripped
segment between the first and second markers (which is everything after the
first marker only when the marker occurs at most once); when the marker is
absent the justification is empty and the whole (stripped) response is the
reply; when the backend provides no explicit confidence the returned
confidence is 6/10 = 0.6. -/
theorem C9_amended_split_semantics (resp : BackendResp) :
    (resp.probability = none → (generate_reply (.ok resp)).confidence = 6/10)
  ∧ (∀ p, resp.probability = some p → (generate_reply (.ok resp)).confidence = p)
  ∧ (occursIn justMarker.data resp.text.data = false →
      (generate_reply (.ok resp)).reply_text = pyStrip resp.text
    ∧ (generate_reply (.ok resp)).justification = "")
  ∧ ((generate_reply (.ok resp)).reply_text =
      pyStrip (String.mk ((splitOnSub justMarker.data resp.text.data).headD []))
    ∧ (generate_reply (.ok resp)).justification =
      (match splitOnSub justMarker.data resp.text.data with
        | _ :: p1 :: _ => pyStrip (String.mk p1)
        | _ => "")) := by
  refine ⟨?_, ?_, ?_, rfl, rfl⟩
  · intro h
    show resp.probability.getD (6/10) = 6/10
    rw [h, Option.getD_none]
  · intro p h
    show resp.probability.getD (6/10) = p
    rw [h, Option.getD_some]
  · intro h
    have hsplit : splitOnSub justMarker.data resp.text.data = [resp.text.data] :=
      splitOnSub_no_occur _ _ h
    constructor
    · show pyStrip (String.mk ((splitOnSub justMarker.data resp.text.data).headD [])) =
        pyStrip resp.text
      rw [hsplit]
      rfl
    · show (match splitOnSub justMarker.data resp.text.data with
          | _ :: p1 :: _ => pyStrip (String.mk p1)
          | _ => "") = ""
      rw [hsplit]

/-- C9 witness: the amended theorem at a marker-free response with no backend
confidence signal. -/
theorem C9_witness :
    (generate_reply (.ok ⟨"All good.", none⟩)).reply_text = pyStrip "All good."
  ∧ (generate_reply (.ok ⟨"All good.", none⟩)).justification = ""
  ∧ (generate_reply (.ok ⟨"All good.", none⟩)).confidence = 6/10 :=
  ⟨((C9_amended_split_semantics ⟨"All good.", none⟩).2.2.1 (by decide)).1,
   ((C9_amended_split_semantics ⟨"All good.", none⟩).2.2.1 (by decide)).2,
   (C9_amended_split_semantics ⟨"All good.", none⟩).1 rfl⟩

/-! ## C4 — attachment text extraction -/

/-- C4 counterexample: a PDF attachment whose rasterization fails on both the
first attempt and the `dpi=200` retry makes `extract_text_from_file` raise
(the retry's exception propagates to the caller) instead of degrading to a
string. -/
theorem C4_counterexample :
    extract_text_from_file pdfFailEnv = .error "poppler crashed again"
  ∧ (extract_text_from_file pdfFailEnv).isOk = false := by
  decide

/-- C4 amended: a missing file yields `""`; the audio branch never raises and
yields `""` on transcription failure; the PDF branch retries rasterization
once (with an explicit `dpi=200`, which is not a lower resolution than the
library default) and, when the retry also fails, propagates that exception;
likewise the image and unrecognized-kind branches propagate `Image.open` /
OCR exceptions. -/
theorem C4_amended_extraction_failures (env : ExtractEnv) :
    (env.pathExists = false → extract_text_from_file env = .ok "")
  ∧ (env.ext ∈ audioExts → env.pathExists = true →
        extract_text_from_file env = .ok (transcribeAudio env)
      ∧ (env.whisper.isOk = false → extract_text_from_file env = .ok ""))
  ∧ (env.ext = "pdf" → env.pathExists = true →
      (∀ e1 pages, env.raster1 = .error e1 → env.raster2 = .ok pages →
        extract_text_from_file env = extractTextFromImages env pages)
    ∧ (∀ e1 e2, env.raster1 = .error e1 → env.raster2 = .error e2 →
        extract_text_from_file env = .error e2))
  ∧ (env.ext ∈ imageExts → env.pathExists = true →
      ∀ e0, env.imageOpen = .error e0 → extract_text_from_file env = .error e0) := by
  refine ⟨?_, ?_, ?_, ?_⟩
  · intro hp
    simp [extract_text_from_file, hp]
  · intro ha hp
    have himg : (env.ext ∈ imageExts) = False := by
      simp only [audioExts, List.mem_cons, List.not_mem_nil, or_false] at ha
      rcases ha with h | h | h | h | h <;> simp [imageExts, h]
    have hpdf : (env.ext = "pdf") = False := by
      simp only [audioExts, List.mem_cons, List.not_mem_nil, or_false] at ha
      rcases ha with h | h | h | h | h <;> simp [h]
    constructor
    · simp [extract_text_from_file, hp, himg, hpdf, ha]
    · intro hw
      cases henv : env.whisper with
      | ok t => rw [henv] at hw; simp [Except.isOk, Except.toBool] at hw
      | error e =>
        simp [extract_text_from_file, hp, himg, hpdf, ha, transcribeAudio, henv]
  · intro hpdf hp
    have himg : (("pdf" : String) ∈ imageExts) = False := by decide
    constructor
    · intro e1 pages h1 h2
      simp [extract_text_from_file, hp, himg, hpdf, h1, h2]
    · intro e1 e2 h1 h2
      simp [extract_text_from_file, hp, himg, hpdf, h1, h2]
  · intro himg hp e0 h0
    simp [extract_text_from_file, hp, himg, h0]

/-- C4 witness: the amended theorem at an audio attachment whose
transcription fails and at a PDF whose rasterization retry succeeds. -/
theorem C4_witness :
    extract_text_from_file audioFailEnv = .ok ""
  ∧ extract_text_from_file pdfRetryEnv = extractTextFromImages pdfRetryEnv [7] :=
  ⟨((C4_amended_extraction_failures audioFailEnv).2.1 (by decide) rfl).2 rfl,
   ((C4_amended_extraction_failures pdfRetryEnv).2.2.1 rfl rfl).1 "poppler crashed" [7] rfl rfl⟩

/-! ## C3 — ingestion batch behaviour -/

theorem processMessage_skipped {db : MailDB} {m : RawMsg} {db' : MailDB}
    (h : processMessage db m = .skipped db') : db' = db := by
  unfold processMessage at h
  split_ifs at h <;> simp_all [emailTimestampAtStore]

theorem processMessage_not_stored (db : MailDB) (m : RawMsg) (db' : MailDB) :
    processMessage db m ≠ .stored db' := by
  intro h
  unfold processMessage at h
  split_ifs at h
  simp_all [emailTimestampAtStore]

/-- Every message that passes the fetch check and the subject allow-list makes
the loop body raise: either a data-dependent exception while parsing/storing,
or — unconditionally — the `TypeError` of email_utils.py:99 on the `None`
timestamp. -/
theorem processMessage_fail {db : MailDB} {m : RawMsg} (h1 : m.fetchOk = true)
    (h2 : subjectMatches m.subject = true) :
    processMessage db m = .failed := by
  by_cases h3 : m.storeFails
  · simp [processMessage, h1, h2, h3]
  · simp [processMessage, h1, h2, h3, emailTimestampAtStore]

theorem ingestLoop_const (msgs : List RawMsg) :
    ∀ (db : MailDB) (c : Nat), ingestLoop msgs db c = (c, db) := by
  induction msgs with
  | nil => intro db c; rfl
  | cons m rest ih =>
    intro db c
    rw [ingestLoop]
    cases hpm : processMessage db m with
    | skipped db' =>
      have hdb := processMessage_skipped hpm
      subst hdb
      exact ih db' c
    | stored db' => exact absurd hpm (processMessage_not_stored db m db')
    | failed => rfl

/-- C3 code bug: the ingestion step can never ingest anything.  Line 99 of
email_utils.py computes `calculate_priority('neutral', False,
email_record.timestamp)` while `email_record.timestamp` is still `None` (the
column default fires only at flush), so `utcnow() - None` raises `TypeError`
on every message that passes the subject filter — before that message's
`commit`.  The exception escapes to the batch-level `except`, so
`fetch_and_store_emails` always returns count 0 with the database unchanged;
in particular a single-message failure trivially "aborts" the whole batch,
contrary to the claim that subsequent unseen messages are still ingested and
a count of successes is reported. -/
theorem C3_ingestion_never_commits (db : MailDB) (msgs : List RawMsg) (m : RawMsg) :
    fetch_and_store_emails db msgs = (0, db)
  ∧ (m.fetchOk = true → subjectMatches m.subject = true →
      processMessage db m = .failed) :=
  ⟨ingestLoop_const msgs db 0, fun h1 h2 => processMessage_fail h1 h2⟩

/-- C3 witness: even the perfectly well-formed `mGood` (fetch OK, subject in
the allow-list, no storage fault of its own) makes the loop body raise, and
the batch returns 0 with nothing stored. -/
theorem C3_witness :
    fetch_and_store_emails dbEmpty [mBad, mGood] = (0, dbEmpty)
  ∧ processMessage dbEmpty mGood = .failed :=
  ⟨(C3_ingestion_never_commits dbEmpty [mBad, mGood] mGood).1,
   (C3_ingestion_never_commits dbEmpty [mBad, mGood] mGood).2 rfl (by decide)⟩

/-! ## C10 — keyword extraction -/

theorem dedupFirstAux_sublist : ∀ (l seen : List String), List.Sublist (dedupFirstAux seen l) l := by
  intro l
  induction l with
  | nil => intro seen; simp [dedupFirstAux]
  | cons x xs ih =>
    intro seen
    rw [dedupFirstAux]
    split_ifs with h
    · exact (ih seen).trans (List.sublist_cons_self x xs)
    · exact (ih (x :: seen)).cons₂ x

theorem mem_dedupFirstAux :
    ∀ {l seen : List String} {x : String}, x ∈ dedupFirstAux seen l → x ∈ l ∧ x ∉ seen := by
  intro l
  induction l with
  | nil => intro seen x h; simp [dedupFirstAux] at h
  | cons y ys ih =>
    intro seen x h
    rw [dedupFirstAux] at h
    split_ifs at h with hy
    · obtain ⟨h1, h2⟩ := ih h
      exact ⟨List.mem_cons_of_mem y h1, h2⟩
    · rcases List.mem_cons.mp h with rfl | hmem
      · exact ⟨List.mem_cons_self x ys, hy⟩
      · obtain ⟨h1, h2⟩ := ih hmem
        exact ⟨List.mem_cons_of_mem y h1, fun hs => h2 (List.mem_cons_of_mem y hs)⟩

theorem dedupFirstAux_nodup : ∀ (l seen : List String), (dedupFirstAux seen l).Nodup := by
  intro l
  induction l with
  | nil => intro seen; simp [dedupFirstAux]
  | cons y ys ih =>
    intro seen
    rw [dedupFirstAux]
    split_ifs with hy
    · exact ih seen
    · refine List.nodup_cons.mpr ⟨fun hmem => ?_, ih (y :: seen)⟩
      exact (mem_dedupFirstAux hmem).2 (List.mem_cons_self y seen)

theorem dedupFirstAux_congr :
    ∀ (l : List String) {s₁ s₂ : List String},
      (∀ a, a ∈ s₁ ↔ a ∈ s₂) → dedupFirstAux s₁ l = dedupFirstAux s₂ l := by
  intro l
  induction l with
  | nil => intro s₁ s₂ _; rfl
  | cons x xs ih =>
    intro s₁ s₂ h
    rw [dedupFirstAux, dedupFirstAux]
    by_cases hx : x ∈ s₁
    · rw [if_pos hx, if_pos ((h x).mp hx)]
      exact ih h
    · rw [if_neg hx, if_neg (fun hc => hx ((h x).mpr hc))]
      refine congrArg (x :: ·) (ih fun a => ?_)
      simp [h a]

theorem dedupFirstAux_cons_filter :
    ∀ (l seen : List String) (x : String),
      dedupFirstAux (x :: seen) l = dedupFirstAux seen (l.filter (fun y => y ≠ x)) := by
  intro l
  induction l with
  | nil => intro seen x; rfl
  | cons y ys ih =>
    intro seen x
    by_cases hyx : y = x
    · subst hyx
      rw [dedupFirstAux, if_pos (List.mem_cons_self y seen)]
      rw [show (y :: ys).filter (fun z => z ≠ y) = ys.filter (fun z => z ≠ y) by simp]
      exact ih seen y
    · rw [show (y :: ys).filter (fun z => z ≠ x) = y :: ys.filter (fun z => z ≠ x) by
        simp [hyx]]
      by_cases hys : y ∈ seen
      · rw [dedupFirstAux, if_pos (List.mem_cons_of_mem x hys),
          dedupFirstAux, if_pos hys]
        exact ih seen x
      · have hyxs : y ∉ x :: seen := by simp [hyx, hys]
        rw [dedupFirstAux, if_neg hyxs, dedupFirstAux, if_neg hys]
        refine congrArg (y :: ·) ?_
        rw [dedupFirstAux_congr ys
          (show ∀ a, a ∈ y :: x :: seen ↔ a ∈ x :: y :: seen by intro a; simp; tauto)]
        exact ih (y :: seen) x

theorem dedupFirst_cons (x : String) (xs : List String) :
    dedupFirst (x :: xs) = x :: dedupFirst (xs.filter (fun y => y ≠ x)) := by
  unfold dedupFirst
  rw [dedupFirstAux, if_neg (List.not_mem_nil x)]
  exact congrArg (x :: ·) (dedupFirstAux_cons_filter xs [] x)

/-- C10: for every input text and bound, `extract_keywords` returns at most
`max_keywords` (5 at the ingestion call site) keywords; the list is
duplicate-free, a subsequence of the word list of the lowercased text
(preserving order, keeping the first occurrence of each word — the
`dedupFirst_cons` equation), and each keyword is a word-character run of
length ≥ 5 drawn from the lowercased text.  The Email row ingestion
constructs (email_utils.py:72-80) carries exactly `','.join` of this list in
its keywords column — but the ingestion step raises at the priority
computation before every commit (email_utils.py:99, `None` timestamp; see
C3), so no Email row is ever persisted: the "ingestion stores this list"
clause of the claim only describes the constructed, never-committed row. -/
theorem C10_extract_keywords (text : String) (m : Nat) (msg : RawMsg) (tkey : String) :
    (extract_keywords text m).length ≤ m
  ∧ (extract_keywords text m).Nodup
  ∧ List.Sublist (extract_keywords text m) (findWords text)
  ∧ (∀ w ∈ extract_keywords text m, 5 ≤ w.length ∧ w ∈ findWords text)
  ∧ (∀ x xs, dedupFirst (x :: xs) = x :: dedupFirst (xs.filter (fun y => y ≠ x)))
  ∧ (buildEmailRecord tkey msg).keywords
      = String.intercalate "," (extract_keywords msg.body 5)
  ∧ ∀ (db : MailDB) (msgs : List RawMsg),
      (fetch_and_store_emails db msgs).2.emails = db.emails := by
  have hsub : List.Sublist (extract_keywords text m) (findWords text) :=
    (List.take_sublist m _).trans (dedupFirstAux_sublist _ [])
  refine ⟨List.length_take_le m _, ?_, hsub, ?_, dedupFirst_cons, rfl, ?_⟩
  · exact (List.take_sublist m _).nodup (dedupFirstAux_nodup _ [])
  · intro w hw
    have hwf : w ∈ findWords text := hsub.mem hw
    refine ⟨?_, hwf⟩
    obtain ⟨a, ha, rfl⟩ := List.mem_map.mp hwf
    have := (List.mem_filter.mp ha).2
    simpa [String.length] using of_decide_eq_true this
  · intro db msgs
    rw [show fetch_and_store_emails db msgs = (0, db) from ingestLoop_const msgs db 0]

/-- C10 witness: the keyword properties at a concrete text; the row ingestion
builds for `mGood` carries the joined keyword list, yet ingesting `mGood`
leaves the email table unchanged. -/
theorem C10_witness :
    (extract_keywords "hello wonderful world gardens" 5).length ≤ 5
  ∧ (5 ≤ ("wonderful" : String).length
      ∧ "wonderful" ∈ findWords "hello wonderful world gardens")
  ∧ (buildEmailRecord "m2" mGood).keywords
      = String.intercalate "," (extract_keywords mGood.body 5)
  ∧ (fetch_and_store_emails dbEmpty [mGood]).2.emails = dbEmpty.emails :=
  ⟨(C10_extract_keywords "hello wonderful world gardens" 5 mGood "m2").1,
   (C10_extract_keywords "hello wonderful world gardens" 5 mGood "m2").2.2.2.1 "wonderful"
     (by decide),
   (C10_extract_keywords "hello wonderful world gardens" 5 mGood "m2").2.2.2.2.2.1,
   (C10_extract_keywords "hello wonderful world gardens" 5 mGood "m2").2.2.2.2.2.2 dbEmpty
     [mGood]⟩

/-! ## C1 — the "unclassified" sentinel -/

/-- C1 counterexample: the `Email.sentiment` column default is `'neutral'`,
exactly the value a genuine neutral classification produces; `st1` — the state
after a full processing run over one email whose body classifies neutral —
still has that email selected by the unprocessed-email filter, even though a
draft was already generated for it. -/
theorem C1_counterexample :
    emailSentimentDefault = (detect_sentiment_and_urgency "hello").1
  ∧ detect_sentiment_and_urgency "hello" = ("neutral", false)
  ∧ st1.emails.map (·.sentiment) = ["neutral"]
  ∧ (findDraft st1.drafts 1).isSome = true
  ∧ (selectUnprocessed st1).length = 1 := by
  decide

/-- C1 amended: a newly stored Email's sentiment defaults to `'neutral'`, the
very value produced by a genuine neutral classification outcome, so the
processing step's selection of unprocessed emails (those with sentiment
`'neutral'`) selects every email already classified as neutral as well. -/
theorem C1_amended_sentinel_conflation :
    emailSentimentDefault = (detect_sentiment_and_urgency "hello").1
  ∧ ∀ (st : PState) (e : PEmail), e ∈ st.emails → e.sentiment = emailSentimentDefault →
      e ∈ selectUnprocessed st := by
  refine ⟨by decide, ?_⟩
  intro st e hmem hsent
  unfold selectUnprocessed
  refine List.mem_filter.mpr ⟨hmem, ?_⟩
  unfold emailSentimentDefault at hsent
  simp [hsent]

/-- C1 witness: the already-classified (neutral) email of `st1` is selected
again by the unprocessed filter. -/
theorem C1_witness :
    (⟨1, 1, "cust@example.com", "Need help", "hello", 0, "neutral", false, []⟩ : PEmail)
      ∈ selectUnprocessed st1 :=
  C1_amended_sentinel_conflation.2 st1 _ (by decide) rfl

/-! ## C2 — idempotence of the processing step -/

theorem sentEvolves_refl (a : Option PDraft) : SentEvolves a a := Or.inl rfl

theorem sentEvolves_trans {a b c : Option PDraft}
    (h1 : SentEvolves a b) (h2 : SentEvolves b c) : SentEvolves a c := by
  rcases h1 with h1 | ⟨ha, h1⟩
  · rcases h2 with h2 | ⟨hb, h2⟩
    · exact Or.inl (h2.trans h1)
    · subst hb
      cases a <;> simp_all [SentEvolves]
  · rcases h2 with h2 | ⟨hb, h2⟩
    · refine Or.inr ⟨ha, ?_⟩
      rcases h1 with h1 | h1
      · subst h1
        left
        cases c <;> simp_all
      · right
        rw [h2, h1]
    · exact Or.inr ⟨ha, h2⟩

theorem findDraft_getD_threadRef (ds : List PDraft) (tid : Nat) :
    ((findDraft ds tid).getD (draftDefault tid)).threadRef = tid := by
  unfold findDraft
  cases hf : ds.find? (·.threadRef == tid) with
  | none => rfl
  | some o =>
    have := List.find?_some hf
    simpa using this

theorem newDraft_threadRef (env : ProcEnv) (aE : List PEmail) (s : PState) (e : PEmail)
    (sent : String) (urg : Bool) :
    (newDraft env aE s e sent urg).threadRef = e.threadRef :=
  findDraft_getD_threadRef s.drafts e.threadRef

theorem newDraft_is_sent (env : ProcEnv) (aE : List PEmail) (s : PState) (e : PEmail)
    (sent : String) (urg : Bool) :
    (newDraft env aE s e sent urg).is_sent
      = ((findDraft s.drafts e.threadRef).getD (draftDefault e.threadRef)).is_sent := rfl

theorem findDraft_replaceFirst_self (ds : List PDraft) (tid : Nat) (d : PDraft)
    (hd : d.threadRef = tid) :
    findDraft (replaceFirstDraft ds tid d) tid = some d := by
  induction ds with
  | nil => simp [replaceFirstDraft, findDraft, List.find?_cons, hd]
  | cons o rest ih =>
    rw [replaceFirstDraft]
    split_ifs with ho
    · simp [findDraft, List.find?_cons, hd]
    · have ho' : (o.threadRef == tid) = false := by simpa using ho
      rw [findDraft] at ih ⊢
      simp only [List.find?_cons, ho']
      exact ih

theorem findDraft_replaceFirst_other (ds : List PDraft) (tid tid' : Nat) (d : PDraft)
    (hd : d.threadRef = tid) (hne : tid' ≠ tid) :
    findDraft (replaceFirstDraft ds tid d) tid' = findDraft ds tid' := by
  have hdfail : (d.threadRef == tid') = false := by
    simp [hd]
    omega
  induction ds with
  | nil => simp [replaceFirstDraft, findDraft, List.find?_cons, hdfail]
  | cons o rest ih =>
    rw [replaceFirstDraft]
    split_ifs with ho
    · have hoeq : o.threadRef = tid := by simpa using ho
      have hofail : (o.threadRef == tid') = false := by
        simp [hoeq]
        omega
      rw [findDraft, findDraft]
      simp only [List.find?_cons, hdfail, hofail]
    · rw [findDraft, findDraft] at ih ⊢
      simp only [List.find?_cons]
      cases hop : (o.threadRef == tid') with
      | true => simp only [hop]
      | false =>
        simp only [hop]
        exact ih

theorem filter_replaceFirst_other (ds : List PDraft) (tid tid' : Nat) (d : PDraft)
    (hd : d.threadRef = tid) (hne : tid' ≠ tid) :
    (replaceFirstDraft ds tid d).filter (·.threadRef == tid')
      = ds.filter (·.threadRef == tid') := by
  have hdfail : (d.threadRef == tid') = false := by
    simp [hd]
    omega
  induction ds with
  | nil => simp [replaceFirstDraft, List.filter_cons, hdfail]
  | cons o rest ih =>
    rw [replaceFirstDraft]
    split_ifs with ho
    · have hoeq : o.threadRef = tid := by simpa using ho
      have hofail : (o.threadRef == tid') = false := by
        simp [hoeq]
        omega
      simp [List.filter_cons, hdfail, hofail]
    · simp only [List.filter_cons]
      cases hop : (o.threadRef == tid') with
      | true => simp [hop, ih]
      | false => simpa [hop] using ih

theorem filter_replaceFirst_len (ds : List PDraft) (tid : Nat) (d : PDraft)
    (hd : d.threadRef = tid) :
    ((replaceFirstDraft ds tid d).filter (·.threadRef == tid)).length
      = max ((ds.filter (·.threadRef == tid)).length) 1 := by
  induction ds with
  | nil => simp [replaceFirstDraft, List.filter_cons, hd]
  | cons o rest ih =>
    rw [replaceFirstDraft]
    split_ifs with ho
    · have hoeq : o.threadRef = tid := by simpa using ho
      simp [List.filter_cons, hd, hoeq]
    · have ho' : (o.threadRef == tid) = false := by simpa using ho
      simp [List.filter_cons, ho', ih]

theorem processOne_drafts_offline (env : ProcEnv) (aE : List PEmail) (s : PState)
    (e : PEmail) (h : env.offline = true) :
    (processOne env aE s e).drafts = s.drafts := by
  simp [processOne, h]

theorem processOne_drafts_online (env : ProcEnv) (aE : List PEmail) (s : PState)
    (e : PEmail) (h : env.offline = false) :
    (processOne env aE s e).drafts
      = replaceFirstDraft s.drafts e.threadRef
          (newDraft env aE s e
            (detect_sentiment_and_urgency (e.body ++ "\n" ++ attachText env e)).1
            (detect_sentiment_and_urgency (e.body ++ "\n" ++ attachText env e)).2) := by
  simp [processOne, h]

theorem processOne_sent (env : ProcEnv) (aE : List PEmail) (s : PState) (e : PEmail)
    (tid : Nat) :
    SentEvolves (findDraft s.drafts tid) (findDraft (processOne env aE s e).drafts tid) := by
  cases hoff : env.offline with
  | true =>
    rw [processOne_drafts_offline env aE s e hoff]
    exact sentEvolves_refl _
  | false =>
    rw [processOne_drafts_online env aE s e hoff]
    by_cases htid : tid = e.threadRef
    · subst htid
      rw [findDraft_replaceFirst_self _ _ _ (newDraft_threadRef ..)]
      cases hf : findDraft s.drafts e.threadRef with
      | none =>
        refine Or.inr ⟨rfl, Or.inr ?_⟩
        simp only [Option.map_some', newDraft_is_sent, hf]
        rfl
      | some o =>
        refine Or.inl ?_
        simp only [hf, Option.map_some', newDraft_is_sent]
        rfl
    · rw [findDraft_replaceFirst_other _ _ _ _ (newDraft_threadRef ..) htid]
      exact sentEvolves_refl _

theorem processOne_count (env : ProcEnv) (aE : List PEmail) (s : PState) (e : PEmail)
    (tid : Nat) :
    ((processOne env aE s e).drafts.filter (·.threadRef == tid)).length
      ≤ max ((s.drafts.filter (·.threadRef == tid)).length) 1 := by
  cases hoff : env.offline with
  | true =>
    rw [processOne_drafts_offline env aE s e hoff]
    exact le_max_left _ _
  | false =>
    rw [processOne_drafts_online env aE s e hoff]
    by_cases htid : tid = e.threadRef
    · subst htid
      rw [filter_replaceFirst_len _ _ _ (newDraft_threadRef ..)]
    · rw [filter_replaceFirst_other _ _ _ _ (newDraft_threadRef ..) htid]
      exact le_max_left _ _

theorem processOne_other (env : ProcEnv) (aE : List PEmail) (s : PState) (e : PEmail)
    (tid : Nat) (h : e.threadRef ≠ tid) :
    (processOne env aE s e).drafts.filter (·.threadRef == tid)
      = s.drafts.filter (·.threadRef == tid) := by
  cases hoff : env.offline with
  | true => rw [processOne_drafts_offline env aE s e hoff]
  | false =>
    rw [processOne_drafts_online env aE s e hoff]
    exact filter_replaceFirst_other _ _ _ _ (newDraft_threadRef ..) (Ne.symm h)

theorem foldl_sent (env : ProcEnv) (aE : List PEmail) (tid : Nat) :
    ∀ (L : List PEmail) (s : PState),
      SentEvolves (findDraft s.drafts tid)
        (findDraft (L.foldl (fun s e => processOne env aE s e) s).drafts tid) := by
  intro L
  induction L with
  | nil => intro s; exact sentEvolves_refl _
  | cons e L ih =>
    intro s
    rw [List.foldl_cons]
    exact sentEvolves_trans (processOne_sent env aE s e tid) (ih _)

theorem foldl_count (env : ProcEnv) (aE : List PEmail) (tid : Nat) :
    ∀ (L : List PEmail) (s : PState),
      ((L.foldl (fun s e => processOne env aE s e) s).drafts.filter
          (·.threadRef == tid)).length
        ≤ max ((s.drafts.filter (·.threadRef == tid)).length) 1 := by
  intro L
  induction L with
  | nil => intro s; exact le_max_left _ _
  | cons e L ih =>
    intro s
    rw [List.foldl_cons]
    refine le_trans (ih _) ?_
    have h := processOne_count env aE s e tid
    have h2 : max (((processOne env aE s e).drafts.filter (·.threadRef == tid)).length) 1
        ≤ max (max ((s.drafts.filter (·.threadRef == tid)).length) 1) 1 :=
      max_le_max h le_rfl
    simpa [max_assoc] using h2

theorem foldl_other (env : ProcEnv) (aE : List PEmail) (tid : Nat) :
    ∀ (L : List PEmail) (s : PState), (∀ e ∈ L, e.threadRef ≠ tid) →
      (L.foldl (fun s e => processOne env aE s e) s).drafts.filter (·.threadRef == tid)
        = s.drafts.filter (·.threadRef == tid) := by
  intro L
  induction L with
  | nil => intro s _; rfl
  | cons e L ih =>
    intro s hall
    rw [List.foldl_cons]
    rw [ih _ (fun x hx => hall x (List.mem_cons_of_mem e hx))]
    exact processOne_other env aE s e tid (hall e (List.mem_cons_self e L))

/-- C2 counterexample: `st1` is a thread whose one email has been classified
(neutral) and drafted (`"R1"`); the agent sends the draft (`st2`,
`is_sent = true`); re-running the processing step with no new email (`st3`)
overwrites the sent draft's reply text with the freshly generated `"R2"` —
while the sent flag is untouched and the draft row is reused, the claimed
protection of a `sent=true` draft's reply text fails. -/
theorem C2_counterexample :
    (findDraft st1.drafts 1).map (·.is_sent) = some false
  ∧ (findDraft st1.drafts 1).map (·.reply_text) = some "R1"
  ∧ st2.emails = st1.emails
  ∧ (findDraft st2.drafts 1).map (·.is_sent) = some true
  ∧ (findDraft st2.drafts 1).map (·.reply_text) = some "R1"
  ∧ (findDraft st3.drafts 1).map (·.reply_text) = some "R2"
  ∧ (findDraft st3.drafts 1).map (·.is_sent) = some true
  ∧ st3.drafts.length = 1 := by
  decide

/-- C2 amended: the processing step never flips an existing draft's `sent`
flag (at most it creates a fresh `sent=false` draft where none existed),
reuses the thread's existing Draft row rather than creating a second one, and
leaves the drafts of threads having no sentinel-`'neutral'` email untouched;
however — as the counterexample shows — an email classified neutral stays in
the sentinel state, is re-selected, and its thread's draft fields (including
a `sent=true` draft's reply text) are overwritten with freshly generated
values. -/
theorem C2_amended_reprocessing_overwrites (env : ProcEnv) (st : PState) (tid : Nat) :
    SentEvolves (findDraft st.drafts tid) (findDraft (process_emails_task env st).drafts tid)
  ∧ ((process_emails_task env st).drafts.filter (·.threadRef == tid)).length
      ≤ max ((st.drafts.filter (·.threadRef == tid)).length) 1
  ∧ ((∀ e ∈ st.emails, e.threadRef = tid → e.sentiment ≠ "neutral") →
      (process_emails_task env st).drafts.filter (·.threadRef == tid)
        = st.drafts.filter (·.threadRef == tid)) := by
  refine ⟨foldl_sent env st.emails tid (selectUnprocessed st) st,
    foldl_count env st.emails tid (selectUnprocessed st) st, ?_⟩
  intro h
  refine foldl_other env st.emails tid (selectUnprocessed st) st ?_
  intro e he hc
  obtain ⟨hmem, hneu⟩ := List.mem_filter.mp he
  exact h e hmem hc (by simpa using hneu)

/-- C2 witness: the amended theorem at the concrete re-run (`st2` → `st3`)
and at a state whose only email is classified positive. -/
theorem C2_witness :
    SentEvolves (findDraft st2.drafts 1) (findDraft st3.drafts 1)
  ∧ (st3.drafts.filter (·.threadRef == 1)).length
      ≤ max ((st2.drafts.filter (·.threadRef == 1)).length) 1
  ∧ (process_emails_task env1 stPos).drafts.filter (·.threadRef == 1)
      = stPos.drafts.filter (·.threadRef == 1) :=
  ⟨(C2_amended_reprocessing_overwrites env2 st2 1).1,
   (C2_amended_reprocessing_overwrites env2 st2 1).2.1,
   (C2_amended_reprocessing_overwrites env1 stPos 1).2.2 (by decide)⟩

/-! ## C8 — the knowledge retriever -/

instance (q : List ℚ) : IsTotal (Nat × RAGIndexEntry) (ragOrder q) where
  total a b := by
    unfold ragOrder
    rcases lt_trichotomy (sqDist q a.2.vec) (sqDist q b.2.vec) with h | h | h
    · exact Or.inl (Or.inl h)
    · rcases Nat.le_total a.1 b.1 with hn | hn
      · exact Or.inl (Or.inr ⟨h, hn⟩)
      · exact Or.inr (Or.inr ⟨h.symm, hn⟩)
    · exact Or.inr (Or.inl h)

instance (q : List ℚ) : IsTrans (Nat × RAGIndexEntry) (ragOrder q) where
  trans a b c hab hbc := by
    unfold ragOrder at *
    rcases hab with h1 | ⟨h1, h1'⟩
    · rcases hbc with h2 | ⟨h2, h2'⟩
      · exact Or.inl (h1.trans h2)
      · exact Or.inl (h2 ▸ h1)
    · rcases hbc with h2 | ⟨h2, h2'⟩
      · exact Or.inl (h1.trans_lt h2)
      · exact Or.inr ⟨h1.trans h2, h1'.trans h2'⟩

theorem sorted_take_drop {q : List ℚ} {l : List (Nat × RAGIndexEntry)}
    (hs : l.Sorted (ragOrder q)) (n : Nat) :
    ∀ a ∈ l.take n, ∀ b ∈ l.drop n, sqDist q a.2.vec ≤ sqDist q b.2.vec := by
  intro a ha b hb
  have hp : List.Pairwise (ragOrder q) (l.take n ++ l.drop n) := by
    rw [List.take_append_drop]
    exact hs
  have h := (List.pairwise_append.mp hp).2.2 a ha b hb
  rcases h with h | ⟨h, -⟩
  · exact le_of_lt h
  · exact le_of_eq h

theorem topk_core (embed : String → List ℚ) (q : String) (k : Nat) (kb : List String) :
    (((List.insertionSort (ragOrder (embed q)) (kbIndex embed kb).enum).take
        (min k (kbIndex embed kb).length)).map (fun p => p.2.content)).length ≤ k
  ∧ (∀ s ∈ ((List.insertionSort (ragOrder (embed q)) (kbIndex embed kb).enum).take
        (min k (kbIndex embed kb).length)).map (fun p => p.2.content), s ∈ kb)
  ∧ ∃ l : List (Nat × RAGIndexEntry),
      List.Perm l (kbIndex embed kb).enum ∧ l.Sorted (ragOrder (embed q))
    ∧ ((List.insertionSort (ragOrder (embed q)) (kbIndex embed kb).enum).take
        (min k (kbIndex embed kb).length)).map (fun p => p.2.content)
      = (l.take (min k kb.length)).map (fun p => p.2.content)
    ∧ ∀ a ∈ l.take (min k kb.length), ∀ b ∈ l.drop (min k kb.length),
        sqDist (embed q) a.2.vec ≤ sqDist (embed q) b.2.vec := by
  have hlen : (kbIndex embed kb).length = kb.length := by simp [kbIndex]
  refine ⟨?_, ?_, ?_⟩
  · rw [List.length_map, List.length_take, List.length_insertionSort, List.enum_length, hlen]
    omega
  · intro s hs
    obtain ⟨p, hp, rfl⟩ := List.mem_map.mp hs
    have hp1 : p ∈ List.insertionSort (ragOrder (embed q)) (kbIndex embed kb).enum :=
      List.mem_of_mem_take hp
    have hp2 : p ∈ (kbIndex embed kb).enum :=
      (List.perm_insertionSort _ _).mem_iff.mp hp1
    have hp3 : p.2 ∈ kbIndex embed kb := by
      rw [← List.enum_map_snd (kbIndex embed kb)]
      exact List.mem_map_of_mem _ hp2
    obtain ⟨c, hc, hce⟩ := List.mem_map.mp hp3
    rw [← hce]
    exact hc
  · refine ⟨List.insertionSort (ragOrder (embed q)) (kbIndex embed kb).enum,
      List.perm_insertionSort _ _, List.sorted_insertionSort _ _, ?_, ?_⟩
    · rw [hlen]
    · intro a ha b hb
      exact sorted_take_drop (List.sorted_insertionSort _ _) _ a ha b hb

/-- C8: for every query and `k`, from any reachable retriever state (freshly
constructed `index = None`, or already built from the KB table) `get_top_k`
returns at most `k` snippets; with no KB entries it returns the empty
sequence; a first query from the Empty state installs the index built over
every KBEntry content before answering; every returned snippet is a KB
entry's content, and the returned sequence is the `min(k, n)` prefix of some
sorted-by-ascending-L2-distance (ties by id) permutation of the indexed
entries, each returned entry no farther from the query embedding than any
entry not returned. -/
theorem C8_retriever_top_k (embed : String → List ℚ) (r : RAGState) (q : String) (k : Nat)
    (hInv : r.index = none ∨ r.index = some (kbIndex embed r.kb)) :
    (get_top_k embed r q k).1.length ≤ k
  ∧ (r.kb = [] → (get_top_k embed r q k).1 = [])
  ∧ (get_top_k embed r q k).2.kb = r.kb
  ∧ (r.kb ≠ [] → (get_top_k embed r q k).2.index = some (kbIndex embed r.kb))
  ∧ (∀ s ∈ (get_top_k embed r q k).1, s ∈ r.kb)
  ∧ ∃ l : List (Nat × RAGIndexEntry),
      List.Perm l (kbIndex embed r.kb).enum
    ∧ l.Sorted (ragOrder (embed q))
    ∧ (get_top_k embed r q k).1 = (l.take (min k r.kb.length)).map (fun p => p.2.content)
    ∧ ∀ a ∈ l.take (min k r.kb.length), ∀ b ∈ l.drop (min k r.kb.length),
        sqDist (embed q) a.2.vec ≤ sqDist (embed q) b.2.vec := by
  by_cases hkb : r.kb = []
  · have hempty : kbIndex embed r.kb = [] := by simp [kbIndex, hkb]
    have h1 : get_top_k embed r q k = ([], (get_top_k embed r q k).2) ∧
        (get_top_k embed r q k).2.kb = r.kb ∧
        ((get_top_k embed r q k).2.index = none ∨
          (get_top_k embed r q k).2.index = some (kbIndex embed r.kb)) := by
      rcases hInv with hnone | hsome
      · have : get_top_k embed r q k = ([], { r with index := none }) := by
          simp [get_top_k, hnone, build_index, hkb]
        rw [this]
        exact ⟨rfl, rfl, Or.inl rfl⟩
      · have : get_top_k embed r q k = ([], r) := by
          simp [get_top_k, hsome, hempty]
        rw [this]
        exact ⟨rfl, rfl, Or.inr hsome⟩
    obtain ⟨hfst, hkb2, -⟩ := h1
    refine ⟨?_, fun _ => ?_, hkb2, fun hne => absurd hkb hne, ?_, ?_⟩
    · rw [show (get_top_k embed r q k).1 = [] from congrArg Prod.fst hfst]
      simp
    · exact congrArg Prod.fst hfst
    · rw [show (get_top_k embed r q k).1 = [] from congrArg Prod.fst hfst]
      simp
    · refine ⟨[], by simp [hempty], List.sorted_nil, ?_, by simp⟩
      rw [show (get_top_k embed r q k).1 = [] from congrArg Prod.fst hfst]
      simp
  · have hkbe : r.kb.isEmpty = false := by
      cases hk : r.kb with
      | nil => exact absurd hk hkb
      | cons a t => simp
    have hne : (kbIndex embed r.kb).isEmpty = false := by
      cases hk : r.kb with
      | nil => exact absurd hk hkb
      | cons a t => simp [kbIndex, hk]
    have h1 : get_top_k embed r q k =
        (((List.insertionSort (ragOrder (embed q)) (kbIndex embed r.kb).enum).take
            (min k (kbIndex embed r.kb).length)).map (fun p => p.2.content),
          { r with index := some (kbIndex embed r.kb) }) := by
      rcases hInv with hnone | hsome
      · simp [get_top_k, hnone, build_index, hkbe, hne]
      · have hr : ({ r with index := some (kbIndex embed r.kb) } : RAGState) = r := by
          cases r with
          | mk kb idx =>
            simp at hsome
            simp [hsome]
        rw [hr]
        simp [get_top_k, hsome, hne]
    obtain ⟨hlen, hmem, hex⟩ := topk_core embed q k r.kb
    rw [h1]
    exact ⟨hlen, fun h => absurd h hkb, rfl, fun _ => rfl, hmem, hex⟩

/-- C8 witness: the theorem applied to a freshly constructed retriever over a
two-entry KB and to an empty KB. -/
theorem C8_witness :
    ((⟨["returns are free", "shipping takes 3 days"], none⟩ : RAGState).index = none
      ∨ (⟨["returns are free", "shipping takes 3 days"], none⟩ : RAGState).index
          = some (kbIndex (fun s => [(s.length : ℚ)])
              ["returns are free", "shipping takes 3 days"]))
  ∧ (get_top_k (fun s => [(s.length : ℚ)])
        ⟨["returns are free", "shipping takes 3 days"], none⟩ "shipping?" 1).1.length ≤ 1
  ∧ (get_top_k (fun s => [(s.length : ℚ)]) ⟨[], none⟩ "anything" 3).1 = [] :=
  ⟨Or.inl rfl,
   (C8_retriever_top_k (fun s => [(s.length : ℚ)])
      ⟨["returns are free", "shipping takes 3 days"], none⟩ "shipping?" 1 (Or.inl rfl)).1,
   (C8_retriever_top_k (fun s => [(s.length : ℚ)]) ⟨[], none⟩ "anything" 3
      (Or.inl rfl)).2.1 rfl⟩

end AIComm
